import Mathlib

-- Verification of the ethers-db read-only Erigon database access layer.
-- The definitions below are a shallow embedding of the Rust sources:
--   src/account.rs  (Account codec),
--   src/utils.rs    (bytes_to_u64, MsgCast, BlockCast),
--   src/storage.rs  (StorageBucket and the dup-sorted storage table),
--   src/reader.rs   (Reader accessor methods),
--   src/db.rs       (the older DbTx accessor draft),
--   src/client.rs   (Client facade: get_balance, get_block, ...).
-- Machine integers are modelled as Nat (u64/U256 values produced by the
-- decoders are bounded by construction; wrapping is written explicitly
-- with % 2 ^ 64 where the source can overflow).  Byte strings are
-- List Nat with each element a byte value.  Hashes, addresses and
-- 256-bit words that the accessors only move around and compare are
-- modelled as Nat.

set_option autoImplicit false

namespace EthersDb

/-- Outcome of a fallible Rust computation: `ok` (Rust `Ok`), `err`
(a recoverable `anyhow` error, Rust `Err`), or `panic` (a process
abort: slice out of bounds, a failed `assert!`, or `.expect`).
The distinction between `err` and `panic` is the observable difference
between returning a typed error to the caller and aborting. -/
inductive DResult (α : Type) where
  | ok (a : α)
  | err
  | panic
  deriving DecidableEq, Repr

def DResult.bind {α β : Type} : DResult α → (α → DResult β) → DResult β
  | .ok a, f => f a
  | .err, _ => .err
  | .panic, _ => .panic

def DResult.map {α β : Type} (f : α → β) : DResult α → DResult β
  | .ok a => .ok (f a)
  | .err => .err
  | .panic => .panic

/-- Lift a lookup that either produced a value or a recoverable error
(`Option` with `none` as the error case) into `DResult`. -/
def optToD {α : Type} : Option α → DResult α
  | some a => .ok a
  | none => .err

-- ======================================================================
-- Account codec (src/account.rs)
-- ======================================================================

/-- The decoded account record (src/account.rs, struct Account).
`balance` is the 256-bit balance, `codehash` the 32 raw hash bytes. -/
structure Account where
  nonce : Nat
  incarnation : Nat
  balance : Nat
  codehash : List Nat
  deriving DecidableEq, Repr

/-- `Account::default()`: all fields zero, codehash all-zero 32 bytes. -/
def Account.default : Account :=
  { nonce := 0, incarnation := 0, balance := 0, codehash := List.replicate 32 0 }

/-- Big-endian interpretation of a byte string as a Nat. -/
def beBytesToNat (l : List Nat) : Nat :=
  l.foldl (fun acc b => acc * 256 + b) 0

/-- `bytes_to_u64` (src/utils.rs lines 20-26): writes the reversed input
bytes into a little-endian 8-byte buffer, which amounts to the big-endian
value of the input.  The indexed write `decoded[i] = *b` goes out of
bounds (a Rust panic) whenever the input holds more than 8 bytes. -/
def bytes_to_u64 (buf : List Nat) : DResult Nat :=
  if 8 < buf.length then .panic
  else .ok (beBytesToNat buf)

/-- `parse_u64_with_len` (src/account.rs lines 73-78): reads a one-byte
length prefix (`get_u8` panics on an empty buffer), slices that many
bytes (`&enc[..len]` panics when fewer remain), and feeds them to
`bytes_to_u64`.  Returns the parsed value and the remaining bytes. -/
def parse_u64_with_len (enc : List Nat) : DResult (Nat × List Nat) :=
  match enc with
  | [] => .panic
  | len :: rest =>
    if rest.length < len then .panic
    else (bytes_to_u64 (rest.take len)).bind fun v => .ok (v, rest.drop len)

/-- Nonce field step of `Account::decode` (src/account.rs lines 26-29):
`if fieldset & 1 > 0 { acct.nonce = parse_u64_with_len(&mut enc) }`. -/
def Account.decodeNonce (fieldset : Nat) (st : Account × List Nat) :
    DResult (Account × List Nat) :=
  if fieldset &&& 1 ≠ 0 then
    (parse_u64_with_len st.2).bind fun p => .ok ({ st.1 with nonce := p.1 }, p.2)
  else .ok st

/-- Balance field step of `Account::decode` (src/account.rs lines 31-36):
reads a length byte (`get_u8` panics on empty input), then
`enc[..bal_len].into()`.  The slice panics when fewer bytes remain, and
the `U256` big-endian conversion asserts the slice holds at most 32
bytes, so a longer announced length also panics. -/
def Account.decodeBalance (fieldset : Nat) (st : Account × List Nat) :
    DResult (Account × List Nat) :=
  if fieldset &&& 2 ≠ 0 then
    match st.2 with
    | [] => .panic
    | balLen :: rest =>
      if rest.length < balLen then .panic
      else if 32 < balLen then .panic
      else .ok ({ st.1 with balance := beBytesToNat (rest.take balLen) }, rest.drop balLen)
  else .ok st

/-- Incarnation field step of `Account::decode` (src/account.rs lines
38-41): same shape as the nonce field, selected by bit 2. -/
def Account.decodeIncarnation (fieldset : Nat) (st : Account × List Nat) :
    DResult (Account × List Nat) :=
  if fieldset &&& 4 ≠ 0 then
    (parse_u64_with_len st.2).bind fun p => .ok ({ st.1 with incarnation := p.1 }, p.2)
  else .ok st

/-- Codehash field step of `Account::decode` (src/account.rs lines 43-55):
reads a length byte; a length other than 32 is a recoverable decode
error (`format_err`), and with length 32 the code slices exactly 32
bytes, panicking when fewer remain. -/
def Account.decodeCodehash (fieldset : Nat) (st : Account × List Nat) :
    DResult (Account × List Nat) :=
  if fieldset &&& 8 ≠ 0 then
    match st.2 with
    | [] => .panic
    | len :: rest =>
      if len ≠ 32 then .err
      else if rest.length < 32 then .panic
      else .ok ({ st.1 with codehash := rest.take 32 }, rest.drop 32)
  else .ok st

/-- `Account::decode` (src/account.rs lines 17-63).  Empty input decodes
to the default account.  Otherwise the first byte is the field bitmask;
each set low bit selects one field parse in order nonce, balance,
incarnation, codehash; any bytes left after the recognized fields are a
decode error (unexpected account field). -/
def Account.decode (enc : List Nat) : DResult Account :=
  match enc with
  | [] => .ok Account.default
  | fieldset :: rest =>
    ((((Account.decodeNonce fieldset (Account.default, rest)).bind
        (Account.decodeBalance fieldset)).bind
        (Account.decodeIncarnation fieldset)).bind
        (Account.decodeCodehash fieldset)).bind
      fun st => if 0 < st.2.length then .err else .ok st.1

/-- `Account::encode` (src/account.rs lines 66-71): a stub implementation
that always returns `Vec::default()`, i.e. the empty byte string.  The
comment in the source calls it a dummy needed only for a trait bound. -/
def Account.encode (_a : Account) : List Nat := []

-- ======================================================================
-- Transaction messages (akula dependency, used by src/utils.rs MsgCast)
-- ======================================================================

/-- `TransactionAction` from the akula dependency: a call to an address
or a contract creation. -/
inductive TransactionAction where
  | call (addr : Nat)
  | create
  deriving DecidableEq, Repr

/-- `TransactionAction::into_address`. -/
def TransactionAction.intoAddress : TransactionAction → Option Nat
  | .call addr => some addr
  | .create => none

/-- One access-list entry (akula `AccessListItem`): an address plus its
storage slots. -/
structure AccessListItem where
  address : Nat
  slots : List Nat
  deriving DecidableEq, Repr

/-- The three transaction variants (akula `Message`): Legacy carries a
gas price and an optional chain id; EIP-2930 adds the access list;
EIP-1559 replaces the gas price with the two fee fields. -/
inductive Message where
  | legacy (chainId : Option Nat) (nonce gasPrice gasLimit : Nat)
      (action : TransactionAction) (value : Nat) (input : List Nat)
  | eip2930 (chainId : Nat) (nonce gasPrice gasLimit : Nat)
      (action : TransactionAction) (value : Nat) (input : List Nat)
      (accessList : List AccessListItem)
  | eip1559 (chainId : Nat) (nonce maxPriorityFeePerGas maxFeePerGas gasLimit : Nat)
      (action : TransactionAction) (value : Nat) (input : List Nat)
      (accessList : List AccessListItem)
  deriving DecidableEq, Repr

def Message.nonce : Message → Nat
  | .legacy _ n _ _ _ _ _ => n
  | .eip2930 _ n _ _ _ _ _ _ => n
  | .eip1559 _ n _ _ _ _ _ _ _ => n

def Message.gasLimit : Message → Nat
  | .legacy _ _ _ g _ _ _ => g
  | .eip2930 _ _ _ g _ _ _ _ => g
  | .eip1559 _ _ _ _ g _ _ _ _ => g

def Message.action : Message → TransactionAction
  | .legacy _ _ _ _ a _ _ => a
  | .eip2930 _ _ _ _ a _ _ _ => a
  | .eip1559 _ _ _ _ _ a _ _ _ => a

def Message.value : Message → Nat
  | .legacy _ _ _ _ _ v _ => v
  | .eip2930 _ _ _ _ _ v _ _ => v
  | .eip1559 _ _ _ _ _ _ v _ _ => v

def Message.input : Message → List Nat
  | .legacy _ _ _ _ _ _ i => i
  | .eip2930 _ _ _ _ _ _ i _ => i
  | .eip1559 _ _ _ _ _ _ _ i _ => i

def Message.chainId : Message → Option Nat
  | .legacy c _ _ _ _ _ _ => c
  | .eip2930 c _ _ _ _ _ _ _ => some c
  | .eip1559 c _ _ _ _ _ _ _ _ => some c

/-- akula `Message::max_fee_per_gas`: the gas price for Legacy and
EIP-2930, the max fee for EIP-1559. -/
def Message.maxFeePerGas : Message → Nat
  | .legacy _ _ gp _ _ _ _ => gp
  | .eip2930 _ _ gp _ _ _ _ _ => gp
  | .eip1559 _ _ _ mf _ _ _ _ _ => mf

/-- akula `Message::max_priority_fee_per_gas`: the gas price for Legacy
and EIP-2930, the max priority fee for EIP-1559. -/
def Message.maxPriorityFeePerGas : Message → Nat
  | .legacy _ _ gp _ _ _ _ => gp
  | .eip2930 _ _ gp _ _ _ _ _ => gp
  | .eip1559 _ _ mp _ _ _ _ _ _ => mp

/-- ECDSA signature data (akula `MessageSignature`): the y-parity bit and
the r, s scalars. -/
structure Signature where
  oddYParity : Bool
  r : Nat
  s : Nat
  deriving DecidableEq, Repr

/-- akula `MessageWithSignature`: a decoded transaction message plus its
signature. -/
structure MessageWithSignature where
  message : Message
  signature : Signature
  deriving DecidableEq, Repr

/-- akula `MessageWithSignature::v`: the legacy-encoded recovery id
(27/28 without a chain id, EIP-155 form with one), or the bare parity
bit for typed transactions. -/
def MessageWithSignature.v (m : MessageWithSignature) : Nat :=
  let parity := if m.signature.oddYParity then 1 else 0
  match m.message with
  | .legacy (some c) _ _ _ _ _ _ => 35 + 2 * c + parity
  | .legacy none _ _ _ _ _ _ => 27 + parity
  | _ => parity

-- ======================================================================
-- ethers-side output shapes (ethers::types::Transaction / Block)
-- ======================================================================

/-- The externally visible transaction shape (`ethers::types::Transaction`)
as populated by `MsgCast::cast` (src/utils.rs lines 45-81). -/
structure EthersTransaction where
  hash : Nat
  nonce : Nat
  blockHash : Option Nat
  blockNumber : Option Nat
  transactionIndex : Option Nat
  from_ : Nat
  to_ : Option Nat
  value : Nat
  gasPrice : Option Nat
  gas : Nat
  input : List Nat
  v : Nat
  r : Nat
  s : Nat
  transactionType : Option Nat
  accessList : Option (List AccessListItem)
  chainId : Option Nat
  maxPriorityFeePerGas : Option Nat
  maxFeePerGas : Option Nat
  deriving DecidableEq, Repr

/-- The externally visible block shape (`ethers::types::Block<TX>`) as
populated by `BlockCast::cast` (src/utils.rs lines 119-155). -/
structure EthersBlock (TX : Type) where
  hash : Option Nat
  parentHash : Nat
  unclesHash : Nat
  author : Nat
  stateRoot : Nat
  transactionsRoot : Nat
  receiptsRoot : Nat
  number : Option Nat
  gasUsed : Nat
  gasLimit : Nat
  extraData : List Nat
  logsBloom : Option Nat
  timestamp : Nat
  difficulty : Nat
  totalDifficulty : Option Nat
  uncles : List Nat
  transactions : List TX
  mixHash : Option Nat
  nonce : Option Nat
  baseFeePerGas : Option Nat
  deriving DecidableEq, Repr

-- ======================================================================
-- MsgCast / BlockCast (src/utils.rs)
-- ======================================================================

/-- `MsgCast::gas_price` (src/utils.rs lines 83-90): present only for
Legacy and EIP-2930 messages. -/
def MsgCast.gas_price (msg : MessageWithSignature) : Option Nat :=
  match msg.message with
  | .legacy _ _ gp _ _ _ _ => some gp
  | .eip2930 _ _ gp _ _ _ _ _ => some gp
  | _ => none

/-- `MsgCast::tx_type` (src/utils.rs lines 92-98). -/
def MsgCast.tx_type (msg : MessageWithSignature) : Option Nat :=
  match msg.message with
  | .eip2930 _ _ _ _ _ _ _ _ => some 1
  | .eip1559 _ _ _ _ _ _ _ _ _ => some 2
  | _ => none

/-- `MsgCast::access_list` (src/utils.rs lines 100-114): present only for
EIP-2930 and EIP-1559 messages. -/
def MsgCast.access_list (msg : MessageWithSignature) : Option (List AccessListItem) :=
  match msg.message with
  | .eip2930 _ _ _ _ _ _ _ al => some al
  | .eip1559 _ _ _ _ _ _ _ _ al => some al
  | _ => none

/-- `MsgCast::cast` (src/utils.rs lines 45-81).  `hashFn` stands for the
keccak transaction hash `msg.hash()` and `recoverSender` for the ECDSA
`msg.recover_sender()` of the akula dependency; both are parameters of
the embedding because they are opaque cryptographic functions.  When no
separately stored signer is supplied (`src = none`) and recovery fails,
the source calls `.expect("bad sig")`, which aborts.  Both fee fields
are wrapped in `Some` unconditionally (the source lines 76-79). -/
def MsgCast.cast (hashFn : MessageWithSignature → Nat)
    (recoverSender : MessageWithSignature → Option Nat)
    (src : Option Nat) (msg : MessageWithSignature)
    (blockNum blockHash : Nat) (idx : Nat) : DResult EthersTransaction :=
  let mk : Nat → EthersTransaction := fun f =>
    { hash := hashFn msg
      nonce := msg.message.nonce
      blockHash := some blockHash
      blockNumber := some blockNum
      transactionIndex := some idx
      from_ := f
      to_ := msg.message.action.intoAddress
      value := msg.message.value
      gasPrice := MsgCast.gas_price msg
      gas := msg.message.gasLimit
      input := msg.message.input
      v := msg.v
      r := msg.signature.r
      s := msg.signature.s
      transactionType := MsgCast.tx_type msg
      accessList := MsgCast.access_list msg
      chainId := msg.message.chainId
      maxPriorityFeePerGas := some msg.message.maxPriorityFeePerGas
      maxFeePerGas := some msg.message.maxFeePerGas }
  match src with
  | some f => .ok (mk f)
  | none =>
    match recoverSender msg with
    | some f => .ok (mk f)
    | none => .panic

-- ======================================================================
-- Headers, bodies, the database snapshot (src/reader.rs tables)
-- ======================================================================

/-- akula `BlockHeader`: the fields carried through `BlockCast::cast`.
`number` is the block number, used to resolve uncle hashes. -/
structure BlockHeader where
  parentHash : Nat
  ommersHash : Nat
  beneficiary : Nat
  stateRoot : Nat
  transactionsRoot : Nat
  receiptsRoot : Nat
  number : Nat
  gasLimit : Nat
  gasUsed : Nat
  timestamp : Nat
  extraData : List Nat
  logsBloom : Nat
  difficulty : Nat
  mixHash : Nat
  nonce : Nat
  baseFeePerGas : Option Nat
  deriving DecidableEq, Repr

/-- akula `BodyForStorage`: the stored block body record.  `base_tx_id`
and `tx_amount` are u64 counters. -/
structure BodyForStorage where
  base_tx_id : Nat
  tx_amount : Nat
  uncles : List BlockHeader
  deriving DecidableEq, Repr

/-- `BlockCast::cast` (src/utils.rs lines 119-155): projects an akula
header plus the computed context into the ethers block shape. -/
def BlockCast.cast {TX : Type} (header : BlockHeader) (txs : List TX)
    (blockNum blockHash : Nat) (ommerHashes : List Nat) : EthersBlock TX :=
  { hash := some blockHash
    parentHash := header.parentHash
    unclesHash := header.ommersHash
    author := header.beneficiary
    stateRoot := header.stateRoot
    transactionsRoot := header.transactionsRoot
    receiptsRoot := header.receiptsRoot
    number := some blockNum
    gasUsed := header.gasUsed
    gasLimit := header.gasLimit
    extraData := header.extraData
    logsBloom := some header.logsBloom
    timestamp := header.timestamp
    difficulty := header.difficulty
    totalDifficulty := none
    uncles := ommerHashes
    transactions := txs
    mixHash := some header.mixHash
    nonce := some header.nonce
    baseFeePerGas := header.baseFeePerGas }

/-- A composite storage bucket key (src/storage.rs, `StorageBucket`):
the 20-byte address plus the u64 incarnation. -/
structure StorageBucket where
  address : Nat
  incarnation : Nat
  deriving DecidableEq, Repr

/-- Render `n` as `w` big-endian bytes. -/
def beBytes (w n : Nat) : List Nat :=
  (List.range w).map fun i => n / 256 ^ (w - 1 - i) % 256

/-- `StorageBucket::encode` (src/storage.rs lines 21-30): the 20 address
bytes followed by the 8 big-endian incarnation bytes (28 bytes total). -/
def StorageBucket.encode (b : StorageBucket) : List Nat :=
  beBytes 20 b.address ++ beBytes 8 b.incarnation

/-- One row of the dup-sorted storage table: the bucket key, the 32-byte
slot key, and the 32-byte value. -/
abbrev StorageEntry := StorageBucket × Nat × Nat

/-- A read-only snapshot of the chaindata store: one field per table the
accessors touch.  Point lookups are functions to `Option`; the
transaction table is exposed the way `stream_transactions` consumes it,
as the ordered list of rows a cursor walk starting at `start_key`
yields, each row either a decoded transaction or a read/decode error
(`none`).  The storage table is the ordered list of dup-sorted rows. -/
structure Db where
  /-- LastHeader singleton row (head header hash). -/
  lastHeader : Option Nat
  /-- LastBlock singleton row (head block hash). -/
  lastBlock : Option Nat
  /-- HeaderNumber table: hash to block number. -/
  headerNumber : Nat → Option Nat
  /-- CanonicalHeader table: block number to canonical hash. -/
  canonicalHeader : Nat → Option Nat
  /-- Header table keyed by (number, hash); `some` is a row that is
  present and RLP-decodes, `none` covers both a missing row and a
  malformed one (the accessor turns both into an error). -/
  headers : Nat × Nat → Option BlockHeader
  /-- BlockBody table keyed by (number, hash); same convention. -/
  blockBody : Nat × Nat → Option BodyForStorage
  /-- TxLookup table: transaction hash to block number. -/
  txLookup : Nat → Option Nat
  /-- BlockTransaction cursor walk from a start key (see above). -/
  txStream : Nat → List (Option MessageWithSignature)
  /-- PlainState table: address to raw account record bytes. -/
  plainState : Nat → Option (List Nat)
  /-- Dup-sorted storage rows in cursor order. -/
  storage : List StorageEntry

/-- The all-empty snapshot, used to build concrete witnesses. -/
def Db.empty : Db :=
  { lastHeader := none
    lastBlock := none
    headerNumber := fun _ => none
    canonicalHeader := fun _ => none
    headers := fun _ => none
    blockBody := fun _ => none
    txLookup := fun _ => none
    txStream := fun _ => []
    plainState := fun _ => none
    storage := [] }

-- ======================================================================
-- Reader accessors (src/reader.rs)
-- ======================================================================

/-- `Reader::read_head_header_hash` (src/reader.rs lines 27-31): a
missing LastHeader row is an error (`ok_or_else(format_err!)`). -/
def Reader.read_head_header_hash (db : Db) : DResult Nat :=
  match db.lastHeader with
  | some h => .ok h
  | none => .err

/-- `Reader::read_head_block_hash` (src/reader.rs lines 34-38): a
missing LastBlock row is an error. -/
def Reader.read_head_block_hash (db : Db) : DResult Nat :=
  match db.lastBlock with
  | some h => .ok h
  | none => .err

/-- `Reader::read_header_number` (src/reader.rs lines 41-45): missing is
an error. -/
def Reader.read_header_number (db : Db) (hash : Nat) : DResult Nat :=
  match db.headerNumber hash with
  | some n => .ok n
  | none => .err

/-- `Reader::read_canonical_hash` (src/reader.rs lines 170-174): missing
is an error. -/
def Reader.read_canonical_hash (db : Db) (num : Nat) : DResult Nat :=
  match db.canonicalHeader num with
  | some h => .ok h
  | none => .err

/-- `Reader::is_canonical_hash` (src/reader.rs lines 177-181): resolve
the number of the hash, then the canonical hash of that number, and
report whether the canonical hash is non-zero and equal to the query. -/
def Reader.is_canonical_hash (db : Db) (hash : Nat) : DResult Bool :=
  (Reader.read_header_number db hash).bind fun num =>
  (Reader.read_canonical_hash db num).bind fun canonicalHash =>
  .ok (canonicalHash != 0 && canonicalHash == hash)

/-- `Reader::read_header` (src/reader.rs lines 54-65): the raw row is
fetched and RLP-decoded; a missing row and a failed decode are both
errors (collapsed into `none` by the `Db.headers` convention). -/
def Reader.read_header (db : Db) (key : Nat × Nat) : DResult BlockHeader :=
  match db.headers key with
  | some h => .ok h
  | none => .err

/-- `checked_sub` on u64 values. -/
def u64_checked_sub (a b : Nat) : Option Nat :=
  if a < b then none else some (a - b)

/-- `Reader::read_body_for_storage` (src/reader.rs lines 68-92): fetch
and decode the body record, then apply the system-transaction
adjustment: `base_tx_id += 1` (u64 wrap-around written explicitly) and
`tx_amount = tx_amount.checked_sub(2)`, erroring when the stored
`tx_amount` is below 2 (too few txs).  Uncles pass through unchanged. -/
def Reader.read_body_for_storage (db : Db) (key : Nat × Nat) : DResult BodyForStorage :=
  match db.blockBody key with
  | none => .err
  | some body =>
    let base := (body.base_tx_id + 1) % 2 ^ 64
    match u64_checked_sub body.tx_amount 2 with
    | none => .err
    | some amt => .ok { base_tx_id := base, tx_amount := amt, uncles := body.uncles }

/-- `Reader::read_transaction_block_number` (src/reader.rs lines
95-102): missing is an error. -/
def Reader.read_transaction_block_number (db : Db) (hash : Nat) : DResult Nat :=
  match db.txLookup hash with
  | some n => .ok n
  | none => .err

/-- `Reader::try_stream_transactions` (src/reader.rs lines 150-159):
takes the first `n` rows of the cursor walk and flattens, silently
discarding rows that failed to read or decode. -/
def Reader.try_stream_transactions (db : Db) (start_key n : Nat) :
    List MessageWithSignature :=
  ((db.txStream start_key).take n).reduceOption

/-- `Reader::read_account_data` (src/reader.rs lines 185-189): a typed
PlainState lookup; a missing row yields the default account, a present
row is decoded by the Account codec. -/
def Reader.read_account_data (db : Db) (who : Nat) : DResult Account :=
  match db.plainState who with
  | none => .ok Account.default
  | some bytes => Account.decode bytes

/-- The MDBX dup-sort cursor operation `seek_both_range(bucket, key)`:
the first row of the given bucket whose slot is at or after `key`,
if any.  `Db.storage` lists the rows in cursor order. -/
def seek_both_range (tbl : List StorageEntry) (b : StorageBucket) (key : Nat) :
    Option (Nat × Nat) :=
  match tbl with
  | [] => none
  | e :: t => if e.1 = b ∧ key ≤ e.2.1 then some e.2 else seek_both_range t b key

/-- `Reader::read_account_storage` (src/reader.rs lines 199-215): seek
to the first row of the (address, incarnation) bucket at or after the
requested slot; return its value only on an exact slot match, and the
zero value otherwise. -/
def Reader.read_account_storage (db : Db) (who incarnation key : Nat) : DResult Nat :=
  match seek_both_range db.storage ⟨who, incarnation⟩ key with
  | some kv => if kv.1 = key then .ok kv.2 else .ok 0
  | none => .ok 0

-- ======================================================================
-- DbTx accessors (src/db.rs, the older draft of the same methods)
-- ======================================================================

/-- `DbTx::read_head_header_hash` (src/db.rs lines 104-111): a missing
LastHeader row yields the zero hash (`unwrap_or_default`). -/
def DbTx.read_head_header_hash (db : Db) : DResult Nat :=
  .ok (db.lastHeader.getD 0)

/-- `DbTx::read_head_block_hash` (src/db.rs lines 114-121): a missing
LastBlock row yields the zero hash. -/
def DbTx.read_head_block_hash (db : Db) : DResult Nat :=
  .ok (db.lastBlock.getD 0)

/-- `DbTx::read_body_for_storage` (src/db.rs lines 151-173): same
adjustment as the Reader version, with the underflow check written as
an explicit `if tx_amount < 2 { bail! }` before the subtraction. -/
def DbTx.read_body_for_storage (db : Db) (key : Nat × Nat) : DResult BodyForStorage :=
  match db.blockBody key with
  | none => .err
  | some body =>
    if body.tx_amount < 2 then .err
    else .ok { base_tx_id := (body.base_tx_id + 1) % 2 ^ 64
               tx_amount := body.tx_amount - 2
               uncles := body.uncles }

-- ======================================================================
-- Client facade (src/client.rs)
-- ======================================================================

/-- `ethers::types::BlockNumber`: the flexible block-number argument. -/
inductive EthersBlockNumber where
  | number (n : Nat)
  | latest
  | earliest
  | pending
  deriving DecidableEq, Repr

/-- `ethers::types::BlockId`: block selected by hash or by number. -/
inductive BlockId where
  | hash (h : Nat)
  | number (id : EthersBlockNumber)
  deriving DecidableEq, Repr

/-- `get_header_key` (src/client.rs lines 194-215): resolve a flexible
block id to the (number, hash) header key.  A hash resolves its number
through HeaderNumber; an explicit number its hash through
CanonicalHeader; latest and pending go through the head header hash;
earliest is canonical number 0. -/
def Client.get_header_key (db : Db) (id : BlockId) : DResult (Nat × Nat) :=
  match id with
  | .hash h =>
    (Reader.read_header_number db h).bind fun num => .ok (num, h)
  | .number (.number n) =>
    (Reader.read_canonical_hash db n).bind fun h => .ok (n, h)
  | .number .latest =>
    (Reader.read_head_header_hash db).bind fun h =>
    (Reader.read_header_number db h).bind fun num => .ok (num, h)
  | .number .pending =>
    (Reader.read_head_header_hash db).bind fun h =>
    (Reader.read_header_number db h).bind fun num => .ok (num, h)
  | .number .earliest =>
    (Reader.read_canonical_hash db 0).bind fun h => .ok (0, h)

/-- `Client::get_balance` (src/client.rs lines 37-41): the leading
`assert!(block.is_none(), "no history handling yet")` aborts whenever a
block parameter is supplied; otherwise the account balance is read
(defaulting to the zero account when absent). -/
def Client.get_balance (db : Db) (who : Nat) (block : Option BlockId) : DResult Nat :=
  if block.isSome then .panic
  else (Reader.read_account_data db who).map fun acct => acct.balance

/-- `Client::get_transaction_count` (src/client.rs lines 43-47): same
assertion, then the account nonce. -/
def Client.get_transaction_count (db : Db) (who : Nat) (block : Option BlockId) :
    DResult Nat :=
  if block.isSome then .panic
  else (Reader.read_account_data db who).map fun acct => acct.nonce

/-- `Client::get_storage_at` (src/client.rs lines 69-80): same
assertion, then the storage lookup at the incarnation the account
record carries. -/
def Client.get_storage_at (db : Db) (who location : Nat) (block : Option BlockId) :
    DResult Nat :=
  if block.isSome then .panic
  else (Reader.read_account_data db who).bind fun acct =>
    Reader.read_account_storage db who acct.incarnation location

/-- Collect a sequence of fallible reads the way Rust
`collect::<Result<Vec<_>>>` does: the first failure wins. -/
def collectD {α : Type} : List (DResult α) → DResult (List α)
  | [] => .ok []
  | x :: t => x.bind fun a => (collectD t).bind fun as => .ok (a :: as)

/-- The transaction scan of `Client::get_block` (src/client.rs lines
123-127): each cursor row is `msg?.hash()` (errors propagate), the walk
is capped at the expected count, and the hashes are collected into a
Result. -/
def Client.block_tx_hashes (hashFn : MessageWithSignature → Nat) (db : Db)
    (start_key n : Nat) : DResult (List Nat) :=
  collectD (((db.txStream start_key).map fun o => (optToD o).map hashFn).take n)

/-- The transaction scan of `Client::get_block_with_txs` (src/client.rs
lines 162-169): the readable rows among the first `n`
(`try_stream_transactions`) are cast one by one with their index
(`scan`); a cast can abort on signature recovery. -/
def Client.cast_txs (hashFn : MessageWithSignature → Nat)
    (recoverSender : MessageWithSignature → Option Nat)
    (blockNum blockHash : Nat) : Nat → List MessageWithSignature →
    DResult (List EthersTransaction)
  | _, [] => .ok []
  | idx, m :: ms =>
    (MsgCast.cast hashFn recoverSender none m blockNum blockHash idx).bind fun tx =>
    (Client.cast_txs hashFn recoverSender blockNum blockHash (idx + 1) ms).bind fun txs =>
    .ok (tx :: txs)

/-- `Client::get_block` (src/client.rs lines 110-146): resolve the
header key, read header and adjusted body, scan the transaction range
for the expected number of hashes, fail hard when the count does not
match, resolve each uncle hash through CanonicalHeader, and assemble
the block.  The source wraps the success in `Ok(Some(..))`;
the `Some` is unconditional and is elided here. -/
def Client.get_block (hashFn : MessageWithSignature → Nat) (db : Db) (id : BlockId) :
    DResult (EthersBlock Nat) :=
  (Client.get_header_key db id).bind fun key =>
  (Reader.read_header db key).bind fun header =>
  (Reader.read_body_for_storage db key).bind fun body =>
  (Client.block_tx_hashes hashFn db body.base_tx_id body.tx_amount).bind fun txs =>
  if txs.length ≠ body.tx_amount then .err
  else
    (collectD (body.uncles.map fun u => Reader.read_canonical_hash db u.number)).bind
      fun ommerHashes =>
    .ok (BlockCast.cast header txs key.1 key.2 ommerHashes)

/-- `Client::get_block_with_txs` (src/client.rs lines 148-190): same
shape, but the readable transactions are cast to the full external
shape before the count check (reads that failed were discarded by
`try_stream_transactions`, so the check catches them). -/
def Client.get_block_with_txs (hashFn : MessageWithSignature → Nat)
    (recoverSender : MessageWithSignature → Option Nat) (db : Db) (id : BlockId) :
    DResult (EthersBlock EthersTransaction) :=
  (Client.get_header_key db id).bind fun key =>
  (Reader.read_header db key).bind fun header =>
  (Reader.read_body_for_storage db key).bind fun body =>
  (Client.cast_txs hashFn recoverSender key.1 key.2 0
      (Reader.try_stream_transactions db body.base_tx_id body.tx_amount)).bind fun txs =>
  if txs.length ≠ body.tx_amount then .err
  else
    (collectD (body.uncles.map fun u => Reader.read_canonical_hash db u.number)).bind
      fun ommerHashes =>
    .ok (BlockCast.cast header txs key.1 key.2 ommerHashes)

-- ======================================================================
-- Auxiliary definitions used to state and witness the claims
-- ======================================================================

/-- The slot keys of the rows of one bucket, in table order.  The MDBX
dup-sort invariant is that this list is strictly increasing. -/
def bucket_slots (tbl : List StorageEntry) (b : StorageBucket) : List Nat :=
  match tbl with
  | [] => []
  | e :: t => if e.1 = b then e.2.1 :: bucket_slots t b else bucket_slots t b

/-- Concrete fixture: a stored body record with 7 raw transactions. -/
def bodyW : BodyForStorage := { base_tx_id := 5, tx_amount := 7, uncles := [] }

/-- Concrete fixture: a store holding only `bodyW` under key (1, 2). -/
def dbW1 : Db := { Db.empty with blockBody := fun k => if k = (1, 2) then some bodyW else none }

/-- Concrete fixture: hash 3 has number 1, and number 1 is canonical
hash 3. -/
def dbW4 : Db :=
  { Db.empty with
    headerNumber := fun h => if h = 3 then some 1 else none
    canonicalHeader := fun n => if n = 1 then some 3 else none }

/-- Concrete fixture: one storage row, bucket (address 1, incarnation 0),
slot 5, value 9. -/
def dbW3 : Db := { Db.empty with storage := [(⟨1, 0⟩, 5, 9)] }

/-- Concrete fixture: a legacy message with gas price 5. -/
def msgW : MessageWithSignature :=
  { message := .legacy none 0 5 21000 .create 0 []
    signature := { oddYParity := false, r := 1, s := 1 } }

/-- The external transaction `MsgCast::cast` produces from `msgW` with
stored signer 9, hash function constantly 7, block (1, 2), index 0. -/
def txW : EthersTransaction :=
  { hash := 7, nonce := 0, blockHash := some 2, blockNumber := some 1
    transactionIndex := some 0, from_ := 9, to_ := none, value := 0
    gasPrice := some 5, gas := 21000, input := [], v := 27, r := 1, s := 1
    transactionType := none, accessList := none, chainId := none
    maxPriorityFeePerGas := some 5, maxFeePerGas := some 5 }

/-- Concrete fixture: an all-zero header for block number 5. -/
def headerW : BlockHeader :=
  { parentHash := 0, ommersHash := 0, beneficiary := 0, stateRoot := 0
    transactionsRoot := 0, receiptsRoot := 0, number := 5, gasLimit := 0
    gasUsed := 0, timestamp := 0, extraData := [], logsBloom := 0
    difficulty := 0, mixHash := 0, nonce := 0, baseFeePerGas := none }

/-- Concrete fixture: block (5, 7) exists with a body that promises one
user transaction, but the transaction table is empty, so the scan comes
up short. -/
def dbW5 : Db :=
  { Db.empty with
    headerNumber := fun h => if h = 7 then some 5 else none
    headers := fun k => if k = (5, 7) then some headerW else none
    blockBody := fun k =>
      if k = (5, 7) then some { base_tx_id := 10, tx_amount := 3, uncles := [] } else none }

-- ======================================================================
-- Theorems
-- ======================================================================

@[simp] theorem DResult.bind_ok {α β : Type} (a : α) (f : α → DResult β) :
    DResult.bind (.ok a) f = f a := rfl

@[simp] theorem DResult.bind_err {α β : Type} (f : α → DResult β) :
    DResult.bind .err f = .err := rfl

@[simp] theorem DResult.bind_panic {α β : Type} (f : α → DResult β) :
    DResult.bind .panic f = .panic := rfl

@[simp] theorem DResult.map_ok {α β : Type} (f : α → β) (a : α) :
    DResult.map f (.ok a) = .ok (f a) := rfl

/-- Claim C1: for every stored block body record whose decoded tx_amount
is N with N ≥ 2, read_body_for_storage returns a body with base_tx_id
incremented by 1 and tx_amount equal to N - 2 (uncles unchanged); for
every stored body with tx_amount < 2 it returns an error.  The
hypothesis `hwf` states that the incremented u64 base_tx_id does not
wrap, which holds for every decoded u64 except 2^64 - 1. -/
theorem c1_read_body_for_storage_adjustment (db : Db) (key : Nat × Nat)
    (body : BodyForStorage) (h : db.blockBody key = some body)
    (hwf : body.base_tx_id + 1 < 2 ^ 64) :
    (2 ≤ body.tx_amount →
      Reader.read_body_for_storage db key =
        .ok { base_tx_id := body.base_tx_id + 1
              tx_amount := body.tx_amount - 2
              uncles := body.uncles }) ∧
    (body.tx_amount < 2 → Reader.read_body_for_storage db key = .err) := by
  constructor
  · intro h2
    simp only [Reader.read_body_for_storage, h, u64_checked_sub]
    rw [if_neg (show ¬body.tx_amount < 2 by omega)]
    rw [Nat.mod_eq_of_lt hwf]
  · intro h2
    simp only [Reader.read_body_for_storage, h, u64_checked_sub]
    rw [if_pos h2]

/-- Witness for C1 at the concrete store `dbW1`: tx_amount 7 becomes 5
and base_tx_id 5 becomes 6. -/
theorem c1_witness :
    Reader.read_body_for_storage dbW1 (1, 2) =
      .ok { base_tx_id := 6, tx_amount := 5, uncles := [] } :=
  (c1_read_body_for_storage_adjustment dbW1 (1, 2) bodyW (by decide) (by decide)).1
    (by decide)

/-- Claim C4: for every hash for which the hash-to-number lookup and the
number-to-canonical-hash lookup both yield a result, is_canonical_hash
returns true exactly when the canonical hash stored for that number
equals the queried hash and that hash is non-zero. -/
theorem c4_is_canonical_hash (db : Db) (hash n c : Nat)
    (h1 : db.headerNumber hash = some n) (h2 : db.canonicalHeader n = some c) :
    (Reader.is_canonical_hash db hash = .ok true ↔ (c = hash ∧ hash ≠ 0)) := by
  simp only [Reader.is_canonical_hash, Reader.read_header_number,
    Reader.read_canonical_hash, h1, DResult.bind_ok, h2, DResult.ok.injEq,
    Bool.and_eq_true, bne_iff_ne, ne_eq, beq_iff_eq]
  constructor
  · rintro ⟨hc0, hch⟩
    subst hch
    exact ⟨rfl, hc0⟩
  · rintro ⟨hch, hh0⟩
    subst hch
    exact ⟨hh0, rfl⟩

/-- Witness for C4 at the concrete store `dbW4`: hash 3 resolves to
number 1 whose canonical hash is 3 again, so the query is canonical. -/
theorem c4_witness :
    Reader.is_canonical_hash dbW4 3 = .ok true ↔ ((3 : Nat) = 3 ∧ (3 : Nat) ≠ 0) :=
  c4_is_canonical_hash dbW4 3 1 3 rfl rfl

/-- Counterexample for C6: on a store with no LastHeader row, the
Reader implementation of read_head_header_hash returns an error, not
the zero-hash sentinel the claim promises. -/
theorem c6_counterexample :
    Reader.read_head_header_hash Db.empty = .err ∧
    (DResult.err ≠ (DResult.ok 0 : DResult Nat)) :=
  ⟨rfl, by decide⟩

/-- Claim C6 as amended: when the singleton head-header (head-block) row
is absent, the DbTx accessors of src/db.rs return the zero-hash
sentinel, while the Reader accessors of src/reader.rs (the ones the
Client facade uses) return an error instead. -/
theorem c6_head_hash_missing (db : Db) (hh : db.lastHeader = none)
    (hb : db.lastBlock = none) :
    DbTx.read_head_header_hash db = .ok 0 ∧ DbTx.read_head_block_hash db = .ok 0 ∧
    Reader.read_head_header_hash db = .err ∧ Reader.read_head_block_hash db = .err := by
  unfold DbTx.read_head_header_hash DbTx.read_head_block_hash
    Reader.read_head_header_hash Reader.read_head_block_hash
  rw [hh, hb]
  exact ⟨rfl, rfl, rfl, rfl⟩

/-- Witness for the amended C6 on the empty store. -/
theorem c6_witness :
    DbTx.read_head_header_hash Db.empty = .ok 0 ∧
    DbTx.read_head_block_hash Db.empty = .ok 0 ∧
    Reader.read_head_header_hash Db.empty = .err ∧
    Reader.read_head_block_hash Db.empty = .err :=
  c6_head_hash_missing Db.empty rfl rfl

/-- Counterexample for C7: calling get_balance with an explicit block
parameter aborts the process (the `assert!` fires); it does not return
a usage error to the caller. -/
theorem c7_counterexample :
    Client.get_balance Db.empty 0 (some (BlockId.number (.number 1))) = .panic ∧
    (DResult.panic ≠ (DResult.err : DResult Nat)) :=
  ⟨rfl, by decide⟩

/-- Claim C7 as amended: every call to get_balance,
get_transaction_count or get_storage_at with a supplied block parameter
aborts via `assert!(block.is_none())` — the parameter is not silently
ignored, but no error is returned either. -/
theorem c7_block_param_asserts (db : Db) (who loc : Nat) (block : Option BlockId)
    (h : block.isSome = true) :
    Client.get_balance db who block = .panic ∧
    Client.get_transaction_count db who block = .panic ∧
    Client.get_storage_at db who loc block = .panic := by
  unfold Client.get_balance Client.get_transaction_count Client.get_storage_at
  rw [if_pos h, if_pos h, if_pos h]
  exact ⟨rfl, rfl, rfl⟩

/-- Witness for the amended C7 at a concrete historical block query. -/
theorem c7_witness :
    Client.get_balance Db.empty 0 (some (BlockId.number .latest)) = .panic ∧
    Client.get_transaction_count Db.empty 0 (some (BlockId.number .latest)) = .panic ∧
    Client.get_storage_at Db.empty 0 0 (some (BlockId.number .latest)) = .panic :=
  c7_block_param_asserts Db.empty 0 0 (some (BlockId.number .latest)) rfl

/-- Counterexample for C2: a record with the nonce bit set and a length
prefix of 9 bytes aborts the decoder (the indexed write in bytes_to_u64
goes out of bounds); it does not fail with a recoverable decode error. -/
theorem c2_counterexample :
    Account.decode [1, 9, 0, 0, 0, 0, 0, 0, 0, 0, 0] = .panic ∧
    (DResult.panic ≠ (DResult.err : DResult Account)) :=
  ⟨by decide, by decide⟩

/-- Claim C2 as amended: for every input whose bitmask marks the nonce
field and whose one-byte length prefix announces more than 8 bytes,
Account::decode aborts (a Rust panic: either the slice `&enc[..len]` is
out of range, or the 8-byte buffer write in bytes_to_u64 overflows);
it never returns a recoverable decode error for such input. -/
theorem c2_oversized_u64_panics (b len : Nat) (rest : List Nat)
    (hb : b &&& 1 ≠ 0) (hlen : 8 < len) :
    Account.decode (b :: len :: rest) = .panic := by
  have hnonce : Account.decodeNonce b (Account.default, len :: rest) = .panic := by
    simp only [Account.decodeNonce, if_pos hb, parse_u64_with_len]
    by_cases hr : rest.length < len
    · rw [if_pos hr]
      rfl
    · rw [if_neg hr]
      have htake : (rest.take len).length = len := by
        rw [List.length_take]
        omega
      simp only [bytes_to_u64, htake, if_pos hlen, DResult.bind_panic]
  simp only [Account.decode, hnonce, DResult.bind_panic]

/-- Witness for the amended C2 at the concrete oversized record. -/
theorem c2_witness :
    Account.decode (1 :: 9 :: List.replicate 9 0) = .panic :=
  c2_oversized_u64_panics 1 9 (List.replicate 9 0) (by decide) (by decide)

/-- Counterexample for C8: an account with nonce 1 does not survive the
encode-then-decode round trip, because encode is a stub returning the
empty byte string. -/
theorem c8_counterexample :
    Account.decode (Account.encode
        { nonce := 1, incarnation := 0, balance := 0, codehash := List.replicate 32 0 }) ≠
      DResult.ok
        { nonce := 1, incarnation := 0, balance := 0, codehash := List.replicate 32 0 } := by
  decide

/-- Claim C8 as amended: Account::encode is a stub that always returns
the empty byte string (the source comment calls it a dummy impl), so
decoding the encoding of any account yields the default zero account;
the round trip holds only for the zero account.  The second conjunct is
the surviving half of the claim: the empty account decodes from the
empty byte string. -/
theorem c8_encode_is_stub :
    (∀ a : Account, Account.decode (Account.encode a) = .ok Account.default) ∧
    Account.decode [] = .ok Account.default :=
  ⟨fun _ => rfl, rfl⟩

/-- Masking a bitmask byte to its low four bits does not change its
bitwise-and with any constant below 16. -/
theorem mod16_land (b k : Nat) (hk : k < 16) : b % 16 &&& k = b &&& k := by
  have h : b % 16 = b &&& 15 := by
    apply Nat.eq_of_testBit_eq
    intro i
    rw [Nat.testBit_land]
    have h16 : (16 : Nat) = 2 ^ 4 := by norm_num
    rw [h16, Nat.testBit_mod_two_pow]
    have h15 : (15 : Nat) = 2 ^ 4 - 1 := by norm_num
    rw [h15, Nat.testBit_two_pow_sub_one, Bool.and_comm]
  rw [h, Nat.land_assoc]
  congr 1
  apply Nat.eq_of_testBit_eq
  intro i
  rw [Nat.testBit_land]
  have h15 : (15 : Nat) = 2 ^ 4 - 1 := by norm_num
  rw [h15, Nat.testBit_two_pow_sub_one]
  rcases Nat.lt_or_ge i 4 with h4 | h4
  · simp [h4]
  · have hki : k < 2 ^ i := by
      calc k < 16 := hk
        _ = 2 ^ 4 := by norm_num
        _ ≤ 2 ^ i := Nat.pow_le_pow_right (by norm_num) h4
    rw [Nat.testBit_lt_two_pow hki]
    simp [Nat.not_lt.mpr h4]

/-- The nonce step only looks at bit 0 of the bitmask byte. -/
theorem decodeNonce_mod16 (b : Nat) :
    Account.decodeNonce (b % 16) = Account.decodeNonce b := by
  funext st
  unfold Account.decodeNonce
  rw [mod16_land b 1 (by norm_num)]

/-- The balance step only looks at bit 1 of the bitmask byte. -/
theorem decodeBalance_mod16 (b : Nat) :
    Account.decodeBalance (b % 16) = Account.decodeBalance b := by
  funext st
  unfold Account.decodeBalance
  rw [mod16_land b 2 (by norm_num)]

/-- The incarnation step only looks at bit 2 of the bitmask byte. -/
theorem decodeIncarnation_mod16 (b : Nat) :
    Account.decodeIncarnation (b % 16) = Account.decodeIncarnation b := by
  funext st
  unfold Account.decodeIncarnation
  rw [mod16_land b 4 (by norm_num)]

/-- The codehash step only looks at bit 3 of the bitmask byte. -/
theorem decodeCodehash_mod16 (b : Nat) :
    Account.decodeCodehash (b % 16) = Account.decodeCodehash b := by
  funext st
  unfold Account.decodeCodehash
  rw [mod16_land b 8 (by norm_num)]

/-- Claim C10: for every non-empty input, Account::decode depends only
on the low four bits of the leading bitmask byte: clearing bits 4-7 of
the first byte yields the same decode result.  The four field tests
`fieldset & 1/2/4/8` never examine the high bits, and the high bits
alone cause no error. -/
theorem c10_decode_ignores_high_bits (b : Nat) (rest : List Nat) :
    Account.decode (b % 16 :: rest) = Account.decode (b :: rest) := by
  simp only [Account.decode]
  rw [decodeNonce_mod16, decodeBalance_mod16, decodeIncarnation_mod16,
    decodeCodehash_mod16]

/-- Claim C9: whenever MsgCast::cast produces a transaction (of any
variant, Legacy included), both max_fee_per_gas and
max_priority_fee_per_gas are populated with Some value — the akula
accessors that fall back to the gas price for pre-EIP-1559 variants,
wrapped in Some unconditionally. -/
theorem c9_cast_fee_fields (hashFn : MessageWithSignature → Nat)
    (recoverSender : MessageWithSignature → Option Nat) (src : Option Nat)
    (msg : MessageWithSignature) (blockNum blockHash idx : Nat)
    (tx : EthersTransaction)
    (h : MsgCast.cast hashFn recoverSender src msg blockNum blockHash idx = .ok tx) :
    tx.maxFeePerGas = some msg.message.maxFeePerGas ∧
    tx.maxPriorityFeePerGas = some msg.message.maxPriorityFeePerGas := by
  unfold MsgCast.cast at h
  cases src with
  | some f =>
    simp only [DResult.ok.injEq] at h
    subst h
    exact ⟨rfl, rfl⟩
  | none =>
    cases hr : recoverSender msg with
    | some f =>
      rw [hr] at h
      simp only [DResult.ok.injEq] at h
      subst h
      exact ⟨rfl, rfl⟩
    | none =>
      rw [hr] at h
      cases h

/-- Witness for C9 at the concrete legacy transaction `msgW`: the cast
result `txW` carries both fee fields as Some of the gas price. -/
theorem c9_witness :
    txW.maxFeePerGas = some msgW.message.maxFeePerGas ∧
    txW.maxPriorityFeePerGas = some msgW.message.maxPriorityFeePerGas :=
  c9_cast_fee_fields (fun _ => 7) (fun _ => none) (some 9) msgW 1 2 0 txW rfl

/-- If a row with the queried bucket and slot is in the table, and the
slots of that bucket are strictly increasing in table order (the MDBX
dup-sort invariant), then the seek finds exactly that row. -/
theorem bucket_slots_cons (e : StorageEntry) (t : List StorageEntry) (b : StorageBucket) :
    bucket_slots (e :: t) b =
      if e.1 = b then e.2.1 :: bucket_slots t b else bucket_slots t b := rfl

theorem seek_both_range_cons (e : StorageEntry) (t : List StorageEntry)
    (b : StorageBucket) (key : Nat) :
    seek_both_range (e :: t) b key =
      if e.1 = b ∧ key ≤ e.2.1 then some e.2 else seek_both_range t b key := rfl

theorem bucket_slots_mem (tbl : List StorageEntry) (b : StorageBucket) (key v : Nat)
    (hmem : (b, key, v) ∈ tbl) : key ∈ bucket_slots tbl b := by
  induction tbl with
  | nil => cases hmem
  | cons e t ih =>
    rw [bucket_slots_cons]
    rcases List.mem_cons.mp hmem with heq | hmemt
    · rw [← heq]
      rw [if_pos rfl]
      exact List.mem_cons_self _ _
    · by_cases hb : e.1 = b
      · rw [if_pos hb]
        exact List.mem_cons_of_mem _ (ih hmemt)
      · rw [if_neg hb]
        exact ih hmemt

theorem seek_both_range_mem (tbl : List StorageEntry) (b : StorageBucket) (key v : Nat)
    (hs : (bucket_slots tbl b).Pairwise (· < ·))
    (hmem : (b, key, v) ∈ tbl) :
    seek_both_range tbl b key = some (key, v) := by
  induction tbl with
  | nil => cases hmem
  | cons e t ih =>
    by_cases hp : e.1 = b ∧ key ≤ e.2.1
    · have hfind : seek_both_range (e :: t) b key = some e.2 := by
        rw [seek_both_range_cons, if_pos hp]
      rcases List.mem_cons.mp hmem with heq | hmemt
      · rw [hfind, ← heq]
      · exfalso
        have hkey_in : key ∈ bucket_slots t b := bucket_slots_mem t b key v hmemt
        have hcons : bucket_slots (e :: t) b = e.2.1 :: bucket_slots t b := by
          rw [bucket_slots_cons, if_pos hp.1]
        rw [hcons] at hs
        have hlt := (List.pairwise_cons.mp hs).1 key hkey_in
        omega
    · have hfind : seek_both_range (e :: t) b key = seek_both_range t b key := by
        rw [seek_both_range_cons, if_neg hp]
      rcases List.mem_cons.mp hmem with heq | hmemt
      · exfalso
        apply hp
        rw [← heq]
        exact ⟨rfl, le_refl key⟩
      · rw [hfind]
        apply ih ?_ hmemt
        by_cases hb : e.1 = b
        · have hcons : bucket_slots (e :: t) b = e.2.1 :: bucket_slots t b := by
            rw [bucket_slots_cons, if_pos hb]
          rw [hcons] at hs
          exact (List.pairwise_cons.mp hs).2
        · have hsame : bucket_slots (e :: t) b = bucket_slots t b := by
            rw [bucket_slots_cons, if_neg hb]
          rwa [hsame] at hs

/-- If no row with the queried bucket and slot is in the table, any row
the seek lands on has a different slot. -/
theorem seek_both_range_not_mem (tbl : List StorageEntry) (b : StorageBucket)
    (key : Nat) (hnm : ∀ v, (b, key, v) ∉ tbl) :
    ∀ kv, seek_both_range tbl b key = some kv → kv.1 ≠ key := by
  induction tbl with
  | nil =>
    intro kv h
    simp [seek_both_range] at h
  | cons e t ih =>
    intro kv h
    by_cases hp : e.1 = b ∧ key ≤ e.2.1
    · rw [seek_both_range_cons, if_pos hp] at h
      simp only [Option.some.injEq] at h
      intro hkeq
      have h2 : e.2.1 = key := by
        rw [h]
        exact hkeq
      have he : e = (b, key, e.2.2) := by
        rw [← hp.1, ← h2]
      refine hnm e.2.2 ?_
      rw [← he]
      exact List.mem_cons_self e t
    · rw [seek_both_range_cons, if_neg hp] at h
      exact ih (fun v hv => hnm v (List.mem_cons_of_mem e hv)) kv h

/-- Claim C3: under the dup-sort table invariant (strictly increasing
slots within the bucket), the storage read returns the stored value
exactly when a row with the requested (address, incarnation) bucket and
slot exists, and the zero value otherwise (in particular when the
bucket is empty or absent). -/
theorem c3_storage_lookup (db : Db) (who inc key : Nat)
    (hs : (bucket_slots db.storage ⟨who, inc⟩).Pairwise (· < ·)) :
    (∀ v, (⟨who, inc⟩, key, v) ∈ db.storage →
        Reader.read_account_storage db who inc key = .ok v) ∧
    ((∀ v, (⟨who, inc⟩, key, v) ∉ db.storage) →
        Reader.read_account_storage db who inc key = .ok 0) := by
  constructor
  · intro v hmem
    have hseek := seek_both_range_mem db.storage ⟨who, inc⟩ key v hs hmem
    simp [Reader.read_account_storage, hseek]
  · intro hnm
    cases hsk : seek_both_range db.storage ⟨who, inc⟩ key with
    | none => simp [Reader.read_account_storage, hsk]
    | some kv =>
      have hne := seek_both_range_not_mem db.storage ⟨who, inc⟩ key hnm kv hsk
      simp [Reader.read_account_storage, hsk, hne]

/-- Witness for C3 at the concrete one-row store `dbW3`: reading the
written slot returns its value. -/
theorem c3_witness : Reader.read_account_storage dbW3 1 0 5 = .ok 9 :=
  (c3_storage_lookup dbW3 1 0 5 (by decide)).1 9 (by decide)

theorem collectD_cons {α : Type} (x : DResult α) (l : List (DResult α)) :
    collectD (x :: l) = x.bind fun a => (collectD l).bind fun as => .ok (a :: as) := rfl

/-- When every cursor row in the window is readable, the hash collection
of get_block succeeds and yields one hash per row. -/
theorem collect_hashes_all_some (hashFn : MessageWithSignature → Nat)
    (l : List (Option MessageWithSignature)) (hall : ∀ o ∈ l, o.isSome = true) :
    ∃ xs : List Nat,
      collectD (l.map fun o => (optToD o).map hashFn) = .ok xs ∧ xs.length = l.length := by
  induction l with
  | nil => exact ⟨[], rfl, rfl⟩
  | cons o t ih =>
    obtain ⟨m, hm⟩ := Option.isSome_iff_exists.mp (hall o (List.mem_cons_self o t))
    obtain ⟨xs, hxs, hlen⟩ := ih fun x hx => hall x (List.mem_cons_of_mem _ hx)
    subst hm
    refine ⟨hashFn m :: xs, ?_, by simp [hlen]⟩
    rw [List.map_cons, collectD_cons]
    rw [show (optToD (some m)).map hashFn = .ok (hashFn m) from rfl]
    rw [DResult.bind_ok, hxs, DResult.bind_ok]

/-- An unreadable cursor row in the window makes the hash collection of
get_block fail with an error. -/
theorem collect_hashes_with_none (hashFn : MessageWithSignature → Nat)
    (l : List (Option MessageWithSignature)) (o : Option MessageWithSignature)
    (ho : o ∈ l) (hnone : o = none) :
    collectD (l.map fun o => (optToD o).map hashFn) = .err := by
  induction l with
  | nil => cases ho
  | cons x t ih =>
    rcases List.mem_cons.mp ho with heq | hmem
    · have hx : x = none := by
        rw [← heq]
        exact hnone
      rw [hx]
      rfl
    · cases x with
      | none => rfl
      | some m =>
        rw [List.map_cons, collectD_cons]
        rw [show (optToD (some m)).map hashFn = .ok (hashFn m) from rfl]
        rw [DResult.bind_ok, ih hmem, DResult.bind_err]

/-- Readable rows only: flattening keeps the full window length. -/
theorem reduceOption_length_all_some {α : Type} (l : List (Option α))
    (hall : ∀ o ∈ l, o.isSome = true) : l.reduceOption.length = l.length := by
  induction l with
  | nil => rfl
  | cons o t ih =>
    obtain ⟨m, hm⟩ := Option.isSome_iff_exists.mp (hall o (List.mem_cons_self o t))
    subst hm
    have iht := ih fun x hx => hall x (List.mem_cons_of_mem _ hx)
    simp [List.reduceOption_cons_of_some, iht]

/-- When signature recovery succeeds on every message, the cast pass of
get_block_with_txs succeeds and yields one transaction per message. -/
theorem cast_txs_ok (hashFn : MessageWithSignature → Nat)
    (recoverSender : MessageWithSignature → Option Nat)
    (hrec : ∀ m, (recoverSender m).isSome = true) (bn bh : Nat) :
    ∀ (ms : List MessageWithSignature) (i : Nat),
      ∃ ts, Client.cast_txs hashFn recoverSender bn bh i ms = .ok ts ∧
        ts.length = ms.length := by
  intro ms
  induction ms with
  | nil => intro i; exact ⟨[], rfl, rfl⟩
  | cons m t ih =>
    intro i
    obtain ⟨f, hf⟩ := Option.isSome_iff_exists.mp (hrec m)
    obtain ⟨ts, hts, hlen⟩ := ih (i + 1)
    cases hc : MsgCast.cast hashFn recoverSender none m bn bh i with
    | ok tx =>
      refine ⟨tx :: ts, ?_, by simp [hlen]⟩
      simp [Client.cast_txs, hc, hts, DResult.bind]
    | err => simp [MsgCast.cast, hf] at hc
    | panic => simp [MsgCast.cast, hf] at hc

/-- Claim C5: if the transactions readable from the transaction table
range starting at the adjusted base_tx_id number fewer than the
adjusted body.tx_amount, then get_block and get_block_with_txs return
an error and never a block containing a partial transaction list.  The
hypothesis `hrec` states that signature recovery succeeds on the
messages (otherwise get_block_with_txs aborts in the cast before it can
count). -/
theorem c5_short_tx_read_fails (hashFn : MessageWithSignature → Nat)
    (recoverSender : MessageWithSignature → Option Nat) (db : Db) (id : BlockId)
    (key : Nat × Nat) (body : BodyForStorage)
    (hrec : ∀ m, (recoverSender m).isSome = true)
    (hkey : Client.get_header_key db id = .ok key)
    (hbody : Reader.read_body_for_storage db key = .ok body)
    (hshort : (((db.txStream body.base_tx_id).take body.tx_amount).reduceOption).length
        < body.tx_amount) :
    Client.get_block hashFn db id = .err ∧
    Client.get_block_with_txs hashFn recoverSender db id = .err := by
  constructor
  · unfold Client.get_block
    rw [hkey]
    simp only [DResult.bind_ok]
    unfold Reader.read_header
    cases hh : db.headers key with
    | none => rfl
    | some header =>
      simp only [DResult.bind_ok]
      rw [hbody]
      simp only [DResult.bind_ok]
      unfold Client.block_tx_hashes
      rw [← List.map_take]
      by_cases hall : ∀ o ∈ (db.txStream body.base_tx_id).take body.tx_amount,
          o.isSome = true
      · obtain ⟨xs, hxs, hlen⟩ := collect_hashes_all_some hashFn _ hall
        rw [hxs]
        simp only [DResult.bind_ok]
        have hro := reduceOption_length_all_some _ hall
        have hne : xs.length ≠ body.tx_amount := by omega
        rw [if_pos hne]
      · push_neg at hall
        obtain ⟨o, ho, hno⟩ := hall
        have hnone : o = none := by
          cases o with
          | none => rfl
          | some m => exact absurd rfl hno
        rw [collect_hashes_with_none hashFn _ o ho hnone]
        rfl
  · unfold Client.get_block_with_txs
    rw [hkey]
    simp only [DResult.bind_ok]
    unfold Reader.read_header
    cases hh : db.headers key with
    | none => rfl
    | some header =>
      simp only [DResult.bind_ok]
      rw [hbody]
      simp only [DResult.bind_ok]
      unfold Reader.try_stream_transactions
      obtain ⟨ts, hts, hlen⟩ := cast_txs_ok hashFn recoverSender hrec key.1 key.2
        (((db.txStream body.base_tx_id).take body.tx_amount).reduceOption) 0
      rw [hts]
      simp only [DResult.bind_ok]
      have hne : ts.length ≠ body.tx_amount := by omega
      rw [if_pos hne]

/-- Witness for C5 at the concrete store `dbW5`: the body promises one
user transaction but the transaction table is empty, so both block
queries fail instead of returning a block with no transactions. -/
theorem c5_witness :
    Client.get_block (fun _ => 0) dbW5 (BlockId.hash 7) = .err ∧
    Client.get_block_with_txs (fun _ => 0) (fun _ => some 0) dbW5 (BlockId.hash 7) = .err :=
  c5_short_tx_read_fails (fun _ => 0) (fun _ => some 0) dbW5 (BlockId.hash 7) (5, 7)
    { base_tx_id := 11, tx_amount := 1, uncles := [] }
    (fun _ => rfl) rfl (by decide) (by decide)

end EthersDb
